import Mathlib

/-!
Verification of the Spectrum-Saver repository core: the log-file parser
(`parse_logfile`, `parse_header` in src/common.cpp), the time-consistency
checker (`check_logfile_time_consistency` in src/common.cpp) and the
rendering helpers (`draw_spectrogram`, `draw_vertical_gridlines` in the
log2png translation unit).

The C++ code is shallowly embedded:

* C `double` / `float` values that flow through parsing are represented
  exactly by the type `CFloat`: a finite exact rational (an explicit
  numerator / positive-denominator pair `Frac`, kept unnormalized so that
  every operation evaluates by kernel reduction), or a signed infinity,
  or a NaN.  The numeric strings of the log format denote decimal
  rationals and the embedded code only compares them and multiplies them
  by constants, so exact rationals are faithful; rounding of a decimal
  literal to the nearest binary float is not modelled and is noted at
  each definition it could concern.  Equality of C float values is the
  value comparison `CFloat.cppEq` (cross-multiplication), never the
  structural equality of representations.
* Machine integers are `Nat` / `Int` with explicit wrap-around
  (`% 2^64`, 32-bit narrowing) where the C++ converts between widths.
* Fallible C++ code (exceptions thrown by `if_error` / `std::stof`, and
  undefined behaviour such as integer division by zero or out-of-range
  `time_point` conversions) is embedded in `Except`: `.error` means the
  C++ run does not complete normally.
-/

set_option maxRecDepth 100000

namespace SpectrumSaver

/-- Decidable equality on `Except`, used to evaluate the embedded
functions at concrete inputs. -/
instance {ε α : Type} [DecidableEq ε] [DecidableEq α] : DecidableEq (Except ε α) := fun a b =>
  match a, b with
  | .ok x, .ok y =>
    if h : x = y then .isTrue (congrArg Except.ok h)
    else .isFalse (fun hh => h (Except.ok.inj hh))
  | .error x, .error y =>
    if h : x = y then .isTrue (congrArg Except.error h)
    else .isFalse (fun hh => h (Except.error.inj hh))
  | .ok _, .error _ => .isFalse (fun hh => Except.noConfusion hh)
  | .error _, .ok _ => .isFalse (fun hh => Except.noConfusion hh)

/-! ## Exact unnormalized rationals -/

/-- An exact rational `num / den`, with `den` intended positive.  Kept
unnormalized (no gcd) so that all arithmetic and comparisons reduce in the
kernel; value equality is `Frac.eqv`, not structural equality.  Every
constructor used by the embedding produces a positive denominator. -/
structure Frac where
  num : ℤ
  den : ℕ
deriving DecidableEq, Repr

namespace Frac

/-- The rational value represented. -/
def val (f : Frac) : ℚ := (f.num : ℚ) / (f.den : ℚ)

/-- Embed an integer. -/
def ofInt (n : ℤ) : Frac := ⟨n, 1⟩

/-- Value of `n * 10^e` for a natural mantissa and integer exponent. -/
def ofDecimal (n : ℕ) (e : ℤ) : Frac :=
  if 0 ≤ e then ⟨(n : ℤ) * 10 ^ e.toNat, 1⟩ else ⟨(n : ℤ), 10 ^ (-e).toNat⟩

/-- Value equality by cross-multiplication. -/
def eqv (a b : Frac) : Bool := a.num * (b.den : ℤ) = b.num * (a.den : ℤ)

/-- Value order by cross-multiplication (dens positive). -/
def lt (a b : Frac) : Bool := a.num * (b.den : ℤ) < b.num * (a.den : ℤ)

/-- Value order by cross-multiplication (dens positive). -/
def le (a b : Frac) : Bool := a.num * (b.den : ℤ) ≤ b.num * (a.den : ℤ)

/-- Negation. -/
def neg (a : Frac) : Frac := ⟨-a.num, a.den⟩

/-- Absolute value. -/
def abs (a : Frac) : Frac := ⟨|a.num|, a.den⟩

/-- Addition (no normalization). -/
def add (a b : Frac) : Frac := ⟨a.num * (b.den : ℤ) + b.num * (a.den : ℤ), a.den * b.den⟩

/-- Multiplication (no normalization). -/
def mul (a b : Frac) : Frac := ⟨a.num * b.num, a.den * b.den⟩

/-- Division by a natural constant. -/
def divNat (a : Frac) (k : ℕ) : Frac := ⟨a.num, a.den * k⟩

/-- Is the value zero. -/
def isZero (a : Frac) : Bool := a.num = 0

/-- Truncation toward zero (the C `(long)` / `(size_t)` conversion of a
nonnegative value): `Int.tdiv` matches C integer division semantics. -/
def trunc (a : Frac) : ℤ := a.num.tdiv (a.den : ℤ)

/-- The value is an integer (denominator divides numerator). -/
def isInt (a : Frac) : Bool := a.num % (a.den : ℤ) = 0

end Frac

/-! ## C floating-point values

`CFloat` is the value space of C `double` / `float` as used by this
program: a finite value (exact `Frac`), a signed infinity, or a NaN. -/

inductive CFloat where
  | finite (f : Frac)
  | inf (negative : Bool)
  | nan
deriving DecidableEq, Repr

namespace CFloat

/-- C `==` on floats: value equality of finite values; NaN compares
unequal to everything (itself included). -/
def cppEq : CFloat → CFloat → Bool
  | finite a, finite b => a.eqv b
  | inf a, inf b => a = b
  | _, _ => false

/-- C `!=` on floats (true whenever the operands are unordered). -/
def cppNe (a b : CFloat) : Bool := !(cppEq a b)

/-- C `<` on floats: false whenever NaN is involved. -/
def cppLt : CFloat → CFloat → Bool
  | finite a, finite b => a.lt b
  | finite _, inf n => !n
  | inf n, finite _ => n
  | inf a, inf b => a && !b
  | _, _ => false

/-- C `<=` on floats: false whenever NaN is involved. -/
def cppLe (a b : CFloat) : Bool := cppLt a b || cppEq a b

/-- C `>` on floats. -/
def cppGt (a b : CFloat) : Bool := cppLt b a

/-- C `>=` on floats. -/
def cppGe (a b : CFloat) : Bool := cppLe b a

/-- Unary negation. -/
def neg : CFloat → CFloat
  | finite f => finite f.neg
  | inf n => inf (!n)
  | nan => nan

/-- `std::isfinite`. -/
def isFinite : CFloat → Bool
  | finite _ => true
  | _ => false

/-- C float multiplication on exact values (rounding not modelled; the
program only multiplies values whose claims do not depend on rounding). -/
def mul : CFloat → CFloat → CFloat
  | nan, _ => nan
  | _, nan => nan
  | finite a, finite b => finite (a.mul b)
  | inf s, finite b => if b.isZero then nan else inf (s != b.lt (.ofInt 0))
  | finite a, inf s => if a.isZero then nan else inf (s != a.lt (.ofInt 0))
  | inf a, inf b => inf (a != b)

end CFloat

/-! ## The `strtof` / `std::stof` model

`parse_logfile` converts data lines with `std::stof`, and `parse_header`
converts the header's numeric fields with `sscanf` (`%lf`, `%f`), both of
which follow the C `strtod` grammar on the longest valid prefix of the
input: optional whitespace, optional sign, then either a decimal mantissa
with optional exponent, or an infinity word, or a NaN word.  Hexadecimal
float literals (which never occur in this log format) are not modelled.
The value of a decimal literal is kept as an exact rational. -/

/-- C `isspace` for the default locale. -/
def isCSpace (c : Char) : Bool :=
  c = ' ' || c = '\t' || c = '\n' || c = '\x0b' || c = '\x0c' || c = '\r'

/-- Decimal digit test. -/
def isDig (c : Char) : Bool := '0' ≤ c && c ≤ '9'

/-- Value of one decimal digit. -/
def digVal (c : Char) : ℕ := c.toNat - '0'.toNat

/-- Value of a list of decimal digits, most significant first. -/
def digitsToNat (ds : List Char) : ℕ := ds.foldl (fun a c => a * 10 + digVal c) 0

/-- ASCII lower-casing, for the case-insensitive INF / NAN words. -/
def asciiLower (c : Char) : Char :=
  if 'A' ≤ c && c ≤ 'Z' then Char.ofNat (c.toNat + 32) else c

/-- Case-insensitively match a literal word; returns the rest on success. -/
def matchWordCI : List Char → List Char → Option (List Char)
  | [], cs => some cs
  | _ :: _, [] => none
  | p :: ps, c :: cs => if asciiLower c = p then matchWordCI ps cs else none

/-- Character allowed inside the optional parenthesised NaN payload. -/
def isNanSeqChar (c : Char) : Bool := c.isAlphanum || c = '_'

/-- Parse an optional exponent part (`e`/`E`, optional sign, digits).  If no
digit follows the exponent marker, nothing is consumed, as in `strtod`. -/
def parseExponent (cs : List Char) : ℤ × List Char :=
  match cs with
  | c :: cs1 =>
    if c = 'e' || c = 'E' then
      let (sgn, cs2) : ℤ × List Char :=
        match cs1 with
        | '+' :: r => (1, r)
        | '-' :: r => (-1, r)
        | _ => (1, cs1)
      let ds := cs2.takeWhile isDig
      if ds = [] then (0, cs)
      else (sgn * (digitsToNat ds : ℤ), cs2.drop ds.length)
    else (0, cs)
  | [] => (0, cs)

/-- Parse a decimal mantissa with optional fractional part and exponent,
returning its exact rational value and the unconsumed rest.  Fails when no
digit is present before the exponent position. -/
def parseDecimal (cs : List Char) : Option (Frac × List Char) :=
  let d1 := cs.takeWhile isDig
  let r1 := cs.drop d1.length
  match r1 with
  | '.' :: r =>
    let d2 := r.takeWhile isDig
    let r2 := r.drop d2.length
    if d1 = [] && d2 = [] then none
    else
      let (e, r3) := parseExponent r2
      some (Frac.ofDecimal (digitsToNat (d1 ++ d2)) (e - (d2.length : ℤ)), r3)
  | _ =>
    if d1 = [] then none
    else
      let (e, r3) := parseExponent r1
      some (Frac.ofDecimal (digitsToNat d1) e, r3)

/-- The body of `strtod` after the optional sign: INF / INFINITY, NAN with
optional payload, or a decimal literal. -/
def strtofBody (cs : List Char) : Option (CFloat × List Char) :=
  match matchWordCI ['i', 'n', 'f'] cs with
  | some r3 =>
    match matchWordCI ['i', 'n', 'i', 't', 'y'] r3 with
    | some r8 => some (.inf false, r8)
    | none => some (.inf false, r3)
  | none =>
  match matchWordCI ['n', 'a', 'n'] cs with
  | some r =>
    match r with
    | '(' :: r1 =>
      let seq := r1.takeWhile isNanSeqChar
      match r1.drop seq.length with
      | ')' :: r2 => some (.nan, r2)
      | _ => some (.nan, r)
    | _ => some (.nan, r)
  | none => (parseDecimal cs).map (fun p => (CFloat.finite p.1, p.2))

/-- The C `strtof` / `strtod` conversion on the longest valid prefix:
leading whitespace, optional sign, then `strtofBody`.  `none` means no
conversion could be performed. -/
def strtofParse (cs0 : List Char) : Option (CFloat × List Char) :=
  let cs := cs0.dropWhile isCSpace
  match cs with
  | '+' :: r => strtofBody r
  | '-' :: r => (strtofBody r).map (fun p => (p.1.neg, p.2))
  | _ => strtofBody cs

/-- Exception kinds thrown by `std::stof`. -/
inductive StofErr where
  | invalid_argument
  | out_of_range
deriving DecidableEq, Repr

/-- Smallest positive decimal value that `strtof` rounds up to infinity
(overflow boundary of `float`): (2^25 - 1) * 2^103. -/
def FLT_OVERFLOW_BOUND : Frac := ⟨(2 ^ 25 - 1) * 2 ^ 103, 1⟩

/-- Smallest positive normal `float`, 2^-126. -/
def FLT_MIN_NORMAL : Frac := ⟨1, 2 ^ 126⟩

/-- True when the rational is exactly representable as a subnormal float
(an integer multiple of 2^-149). -/
def isExactSubnormal (f : Frac) : Bool := (f.mul ⟨2 ^ 149, 1⟩).isInt

/-- Model of `std::stof`: `strtof` on the string; `invalid_argument` when no
conversion was performed, `out_of_range` when the converted finite value
overflows `float` or underflows inexactly into the subnormal range (glibc
sets `ERANGE` in both cases and libstdc++ turns that into the exception).
As with the rest of the embedding the value is kept exact; rounding of an
in-range value to the nearest `float` is not modelled. -/
def stofModel (s : String) : Except StofErr CFloat :=
  match strtofParse s.data with
  | none => .error .invalid_argument
  | some (v, _) =>
    match v with
    | .finite q =>
      if FLT_OVERFLOW_BOUND.le q.abs then .error .out_of_range
      else if !q.isZero && q.abs.lt FLT_MIN_NORMAL && !isExactSubnormal q then
        .error .out_of_range
      else .ok (.finite q)
    | v => .ok v

example : stofModel "-50.5dBm" = .ok (.finite ⟨-505, 10⟩) := by decide
example : stofModel "nan" = .ok .nan := by decide
example : stofModel "inf" = .ok (.inf false) := by decide
example : stofModel "-InFiNiTy" = .ok (.inf true) := by decide
example : stofModel "dBm" = .error .invalid_argument := by decide
example : stofModel "" = .error .invalid_argument := by decide
example : stofModel "  +1.25e2x" = .ok (.finite ⟨125, 1⟩) := by decide
example : stofModel "1e40" = .error .out_of_range := by decide
example : stofModel "5.e1" = .ok (.finite ⟨50, 1⟩) := by decide
example : stofModel "1e-45" = .error .out_of_range := by decide

/-! ## The record header and its `sscanf` grammar

src/common.cpp `parse_header` recognizes
`$ <start_freq>,<stop_freq>,<steps>,<rbw>,<start_time>,<end_time>`
with `sscanf(line, "$ %lf,%lf,%zu,%f,%31[^,],%31[^,]", ...)` after
checking `line[0] == '$'`, then applies sanity checks.  `%lf`/`%f` skip
whitespace and then follow the `strtod` grammar; `%zu` skips whitespace
and follows `strtoul` (optional sign, decimal digits, wrap-around modulo
2^64, a minus sign negating modulo 2^64); `%31[^,]` consumes one to
thirty-one characters distinct from a comma with no whitespace skip;
literal format characters match exactly one input character. -/

/-- One parsed log record header.  Field names follow `logheader_t` in
src/common.hpp; frequencies are `double` MHz, `steps` is `size_t`, `rbw`
is `float` kHz, and the two timestamps stay textual. -/
structure logheader_t where
  start_freq : CFloat
  stop_freq : CFloat
  steps : ℕ
  rbw : CFloat
  start_time : String
  end_time : String
deriving DecidableEq, Repr

/-- Match one literal format character. -/
def expectChar (c : Char) : List Char → Option (List Char)
  | c1 :: r => if c1 = c then some r else none
  | [] => none

/-- The `%lf` / `%f` conversion: whitespace skip then `strtod` grammar. -/
def scanDouble (cs : List Char) : Option (CFloat × List Char) :=
  strtofParse (cs.dropWhile isCSpace)

/-- The `%zu` conversion: whitespace skip then `strtoul` in base 10, with
the C conversion-to-`size_t` wrap-around (a minus sign negates the value
modulo 2^64). -/
def scanSizeT (cs0 : List Char) : Option (ℕ × List Char) :=
  let cs := cs0.dropWhile isCSpace
  let (negative, cs1) : Bool × List Char :=
    match cs with
    | '-' :: r => (true, r)
    | '+' :: r => (false, r)
    | _ => (false, cs)
  let ds := cs1.takeWhile isDig
  if ds = [] then none
  else
    let n := digitsToNat ds % 2 ^ 64
    some (if negative then (2 ^ 64 - n) % 2 ^ 64 else n, cs1.drop ds.length)

/-- The `%31[^,]` conversion: one to thirty-one characters other than a
comma, no whitespace skip. -/
def scanSet31 (cs : List Char) : Option (String × List Char) :=
  let taken := (cs.takeWhile (fun c => !(c = ','))).take 31
  if taken = [] then none else some (⟨taken⟩, cs.drop taken.length)

/-- The six `sscanf` conversions after the literal `"$ "` part of the
format (the blank in the format skips any run of whitespace). -/
def scanHeaderFields (cs0 : List Char) :
    Option (CFloat × CFloat × ℕ × CFloat × String × String) := do
  let cs := cs0.dropWhile isCSpace
  let (sf, cs) ← scanDouble cs
  let cs ← expectChar ',' cs
  let (tf, cs) ← scanDouble cs
  let cs ← expectChar ',' cs
  let (steps, cs) ← scanSizeT cs
  let cs ← expectChar ',' cs
  let (rbw, cs) ← scanDouble cs
  let cs ← expectChar ',' cs
  let (st, cs) ← scanSet31 cs
  let cs ← expectChar ',' cs
  let (et, _) ← scanSet31 cs
  some (sf, tf, steps, rbw, st, et)

/-- src/common.cpp `parse_header`: marker check, the six conversions (all
six must convert, `ret == 6`), then the sanity checks
`start_freq >= stop_freq`, `steps == 0`, `rbw <= 0 || rbw > 1000`, each a
rejection.  `none` is C++ `return false`; the C++ partial writes into the
out-parameter before a failed return are unobservable (the caller throws)
and are not modelled. -/
def parse_header (line : String) : Option logheader_t :=
  match line.data with
  | '$' :: rest =>
    match scanHeaderFields rest with
    | none => none
    | some (sf, tf, steps, rbw, st, et) =>
      if CFloat.cppGe sf tf then none
      else if steps = 0 then none
      else if CFloat.cppLe rbw (.finite (.ofInt 0))
           || CFloat.cppGt rbw (.finite (.ofInt 1000)) then none
      else some ⟨sf, tf, steps, rbw, st, et⟩
  | _ => none

example :
    parse_header "$ 88.000000,108.000000,450,10.000,20230101T000000,20230101T000059" =
      some ⟨.finite ⟨88000000, 1000000⟩, .finite ⟨108000000, 1000000⟩, 450,
        .finite ⟨10000, 1000⟩, "20230101T000000", "20230101T000059"⟩ := by decide

example : parse_header "# 88.0,108.0,450,10.0,a,b" = none := by decide

example : parse_header "$ 108.0,88.0,450,10.0,a,b" = none := by decide

example : parse_header "$ 88.0,108.0,0,10.0,a,b" = none := by decide

example : parse_header "$ 88.0,108.0,450,1001.0,a,b" = none := by decide

example : parse_header "$ 88.0,108.0,450,10.0,20230101T000000" = none := by decide

/-! ## The log-file parser

src/common.cpp `parse_logfile` reads the stream line by line.  A line
whose first character is `#` is skipped entirely.  Every other line bumps
`in_record_line_count` and is classified by that counter modulo
`lines_per_record` (initially `SIZE_MAX`, set to `steps + 2` by the first
header): remainder 1 is a header line, remainder 0 a mandatory blank
trailing line (which resets the counter), anything else a data line
converted with `std::stof` and required finite.  Validation failures
throw (`if_error`), aborting the parse; after end of stream the parse
requires at least one record and exactly
`headers.size() * first_header.steps` samples. -/

/-- `SIZE_MAX` on the 64-bit target. -/
def SIZE_MAX : ℕ := 2 ^ 64 - 1

/-- The fatal parse failures of `parse_logfile`, each carrying the
1-based physical line number interpolated into the C++ message. -/
inductive ParseErr where
  | invalid_header (line : ℕ)
  | start_freq_mismatch (line : ℕ)
  | stop_freq_mismatch (line : ℕ)
  | steps_mismatch (line : ℕ)
  | rbw_mismatch (line : ℕ)
  | newline_expected (line : ℕ)
  | stof_failed (line : ℕ) (content : String)
  | invalid_power (line : ℕ)
  | no_record
  | count_mismatch
deriving DecidableEq, Repr

/-- The local state of `parse_logfile`'s loop. -/
structure ParserState where
  first_header : logheader_t
  lines_per_record : ℕ
  in_record_line_count : ℕ
  real_line_count : ℕ
  headers : List logheader_t
  power_data : List CFloat
deriving DecidableEq, Repr

/-- State before the first line: the `first_header` sentinel has
`steps = 0` meaning "no header seen yet". -/
def initState : ParserState :=
  { first_header := ⟨.finite (.ofInt 0), .finite (.ofInt 0), 0, .finite (.ofInt 0), "", ""⟩
    lines_per_record := SIZE_MAX
    in_record_line_count := 0
    real_line_count := 0
    headers := []
    power_data := [] }

/-- Line classification: `line[0] == '#'` (an empty line reads the
terminating NUL through `std::string::operator[]`, which is not `#`). -/
def isCommentLine (l : String) : Bool :=
  match l.data with
  | c :: _ => c = '#'
  | [] => false

/-- One iteration of the `parse_logfile` loop on one input line. -/
def processLine (s0 : ParserState) (line : String) : Except ParseErr ParserState :=
  let s1 := { s0 with real_line_count := s0.real_line_count + 1 }
  if isCommentLine line then .ok s1
  else
    let s := { s1 with in_record_line_count := s1.in_record_line_count + 1 }
    if s.in_record_line_count % s.lines_per_record = 1 then
      match parse_header line with
      | none => .error (.invalid_header s.real_line_count)
      | some h =>
        if s.first_header.steps = 0 then
          .ok { s with lines_per_record := h.steps + 2
                       first_header := h
                       headers := s.headers ++ [h] }
        else
          if CFloat.cppNe h.start_freq s.first_header.start_freq then
            .error (.start_freq_mismatch s.real_line_count)
          else if CFloat.cppNe h.stop_freq s.first_header.stop_freq then
            .error (.stop_freq_mismatch s.real_line_count)
          else if !(h.steps = s.first_header.steps) then
            .error (.steps_mismatch s.real_line_count)
          else if CFloat.cppNe h.rbw s.first_header.rbw then
            .error (.rbw_mismatch s.real_line_count)
          else .ok { s with headers := s.headers ++ [h] }
    else if s.in_record_line_count % s.lines_per_record = 0 then
      if !(line = "") then .error (.newline_expected s.real_line_count)
      else .ok { s with in_record_line_count := 0 }
    else
      match stofModel line with
      | .error _ => .error (.stof_failed s.real_line_count line)
      | .ok v =>
        if !v.isFinite then .error (.invalid_power s.real_line_count)
        else .ok { s with power_data := s.power_data ++ [v] }

/-- The `while(getline(...))` loop over the list of input lines. -/
def runLines (s : ParserState) : List String → Except ParseErr ParserState
  | [] => .ok s
  | l :: ls =>
    match processLine s l with
    | .error e => .error e
    | .ok s1 => runLines s1 ls

/-- src/common.cpp `parse_logfile` on the list of lines of the stream:
run the loop, then require at least one record and the exact sample
count `headers.size() * first_header.steps`.  The returned pair is the
(`headers`, `power_data`) output vectors; `.error` is a thrown
`StringException`. -/
def parse_logfile (lines : List String) :
    Except ParseErr (List logheader_t × List CFloat) :=
  match runLines initState lines with
  | .error e => .error e
  | .ok s =>
    if s.headers.length = 0 then .error .no_record
    else if !(s.power_data.length = s.headers.length * s.first_header.steps) then
      .error .count_mismatch
    else .ok (s.headers, s.power_data)

/-- A tiny well-formed log used by several evaluations below. -/
def hdrLine : String := "$ 88.000000,108.000000,2,10.000,20230101T000000,20230101T000059"

/-- Header value parsed from `hdrLine`. -/
def hdrVal : logheader_t :=
  ⟨.finite ⟨88000000, 1000000⟩, .finite ⟨108000000, 1000000⟩, 2,
    .finite ⟨10000, 1000⟩, "20230101T000000", "20230101T000059"⟩

example : parse_logfile [hdrLine, "-50.0", "-60.5", ""] =
    .ok ([hdrVal], [.finite ⟨-500, 10⟩, .finite ⟨-605, 10⟩]) := by decide

example : parse_logfile [hdrLine, "# comment", "-50.0", "-60.5", ""] =
    .ok ([hdrVal], [.finite ⟨-500, 10⟩, .finite ⟨-605, 10⟩]) := by decide

example : parse_logfile [hdrLine, "-50.0", ""] = .error (.stof_failed 3 "") := by decide

example : parse_logfile [hdrLine, "-50.0", "-60.5", "", hdrLine, "-70.0"] =
    .error .count_mismatch := by decide

example : parse_logfile [hdrLine, "-50.0", "nan", ""] =
    .error (.invalid_power 3) := by decide

example : parse_logfile [hdrLine, "-50.0", "oops", ""] =
    .error (.stof_failed 3 "oops") := by decide

example : parse_logfile [] = .error .no_record := by decide

example : parse_logfile [hdrLine, "-50.0", "-60.5", "x"] =
    .error (.newline_expected 4) := by decide

example : parse_logfile
    [hdrLine, "-50.0", "-60.5", "",
     "$ 88.000000,108.000000,3,10.000,20230101T000100,20230101T000159"] =
    .error (.steps_mismatch 5) := by decide

/-! ## Parser invariants -/

/-- Value identity of stored C floats: structural on infinities and NaN,
value equality on finite values.  This is reflexive (unlike the C `==`)
and is implied by a successful C `==` comparison. -/
def CFloat.valEq : CFloat → CFloat → Bool
  | .finite a, .finite b => a.eqv b
  | .inf a, .inf b => a = b
  | .nan, .nan => true
  | _, _ => false

theorem CFloat.valEq_refl (a : CFloat) : CFloat.valEq a a = true := by
  cases a with
  | finite f => simp [CFloat.valEq, Frac.eqv]
  | inf n => simp [CFloat.valEq]
  | nan => simp [CFloat.valEq]

theorem CFloat.valEq_of_cppEq {a b : CFloat} (h : CFloat.cppEq a b = true) :
    CFloat.valEq a b = true := by
  cases a <;> cases b <;> simpa [CFloat.cppEq, CFloat.valEq] using h

/-- The four header fields that must agree across a log file carry the
same values. -/
def sameFields (a b : logheader_t) : Prop :=
  CFloat.valEq a.start_freq b.start_freq = true ∧
  CFloat.valEq a.stop_freq b.stop_freq = true ∧
  a.steps = b.steps ∧
  CFloat.valEq a.rbw b.rbw = true

theorem sameFields_refl (a : logheader_t) : sameFields a a :=
  ⟨CFloat.valEq_refl _, CFloat.valEq_refl _, rfl, CFloat.valEq_refl _⟩

theorem CFloat.cppEq_of_not_ne {a b : CFloat} (h : ¬(CFloat.cppNe a b = true)) :
    CFloat.cppEq a b = true := by
  simpa [CFloat.cppNe] using h

/-- `parse_header` never yields `steps = 0` (the sanity check rejects it). -/
theorem parse_header_steps_pos {l : String} {h : logheader_t}
    (hp : parse_header l = some h) : h.steps ≠ 0 := by
  unfold parse_header at hp
  split at hp
  · rename_i rest hld
    cases hsc : scanHeaderFields rest with
    | none => rw [hsc] at hp; cases hp
    | some fields =>
      rw [hsc] at hp
      obtain ⟨sf, tf, steps, rbw, st, et⟩ := fields
      simp only at hp
      split at hp
      · cases hp
      · split at hp
        · cases hp
        · split at hp
          · cases hp
          · rename_i hsteps _
            cases hp
            simpa using hsteps
  · cases hp

/-- Loop invariant of `parse_logfile`: the `steps = 0` sentinel tracks
emptiness of `headers`, `first_header` is the head of `headers` once one
exists, and every stored header carries the first one's four checked
field values. -/
def Inv (s : ParserState) : Prop :=
  (s.first_header.steps = 0 ↔ s.headers = []) ∧
  (s.first_header.steps ≠ 0 → ∃ t, s.headers = s.first_header :: t) ∧
  (∀ h ∈ s.headers, sameFields h s.first_header)

theorem initState_inv : Inv initState := by
  refine ⟨by decide, ?_, ?_⟩
  · intro h
    exact absurd (rfl : initState.first_header.steps = 0) h
  · intro h hmem
    exact absurd hmem (List.not_mem_nil h)

theorem processLine_inv {s s' : ParserState} {l : String}
    (hinv : Inv s) (hstep : processLine s l = .ok s') : Inv s' := by
  obtain ⟨inv1, inv2, inv3⟩ := hinv
  simp only [processLine] at hstep
  split at hstep
  · -- comment line
    cases hstep
    exact ⟨inv1, inv2, inv3⟩
  · split at hstep
    · -- header position
      split at hstep
      · cases hstep
      · rename_i h hph
        split at hstep
        · -- first header
          rename_i hfirst
          cases hstep
          have hempty : s.headers = [] := inv1.mp (by simpa using hfirst)
          refine ⟨?_, ?_, ?_⟩
          · constructor
            · intro hz; exact absurd hz (by simpa using parse_header_steps_pos hph)
            · intro habs; rw [hempty] at habs; simp at habs
          · intro _
            exact ⟨[], by simp [hempty]⟩
          · intro x hx
            rw [hempty] at hx
            simp at hx
            rw [hx]
            exact sameFields_refl h
        · -- subsequent header
          rename_i hfirst
          split at hstep
          · cases hstep
          · split at hstep
            · cases hstep
            · split at hstep
              · cases hstep
              · split at hstep
                · cases hstep
                · rename_i hne1 hne2 hne3 hne4
                  cases hstep
                  have hsteps0 : s.first_header.steps ≠ 0 := by simpa using hfirst
                  obtain ⟨t, ht⟩ := inv2 hsteps0
                  refine ⟨?_, ?_, ?_⟩
                  · constructor
                    · intro hz; exact absurd hz hsteps0
                    · intro habs; rw [ht] at habs; simp at habs
                  · intro _
                    exact ⟨t ++ [h], by simp [ht]⟩
                  · intro x hx
                    simp only [List.mem_append, List.mem_singleton] at hx
                    rcases hx with hx | hx
                    · exact inv3 x hx
                    · rw [hx]
                      exact ⟨CFloat.valEq_of_cppEq (CFloat.cppEq_of_not_ne hne1),
                             CFloat.valEq_of_cppEq (CFloat.cppEq_of_not_ne hne2),
                             by simpa using hne3,
                             CFloat.valEq_of_cppEq (CFloat.cppEq_of_not_ne hne4)⟩
    · -- blank or data position
      split at hstep
      · split at hstep
        · cases hstep
        · cases hstep
          exact ⟨inv1, inv2, inv3⟩
      · split at hstep
        · cases hstep
        · split at hstep
          · cases hstep
          · cases hstep
            exact ⟨inv1, inv2, inv3⟩

theorem runLines_inv {ls : List String} {s s' : ParserState}
    (hinv : Inv s) (hrun : runLines s ls = .ok s') : Inv s' := by
  induction ls generalizing s with
  | nil =>
    unfold runLines at hrun
    cases hrun
    exact hinv
  | cons l ls ih =>
    unfold runLines at hrun
    cases hp : processLine s l with
    | error e => rw [hp] at hrun; cases hrun
    | ok s1 =>
      rw [hp] at hrun
      exact ih (processLine_inv hinv hp) hrun

theorem runLines_append (s : ParserState) (as bs : List String) :
    runLines s (as ++ bs) =
      match runLines s as with
      | .ok s1 => runLines s1 bs
      | .error e => .error e := by
  induction as generalizing s with
  | nil => simp [runLines]
  | cons a as ih =>
    simp only [List.cons_append, runLines]
    cases processLine s a with
    | error e => simp
    | ok s1 => simpa using ih s1

theorem runLines_cons_error {s : ParserState} {l : String} {e : ParseErr}
    (rest : List String) (h : processLine s l = .error e) :
    runLines s (l :: rest) = .error e := by
  unfold runLines
  rw [h]

theorem parse_logfile_error_of_runLines {lines : List String} {e : ParseErr}
    (h : runLines initState lines = .error e) : parse_logfile lines = .error e := by
  unfold parse_logfile
  rw [h]

/-! ## Claim C1 -/

/-- C1: (a) whenever `parse_logfile` returns successfully, the
power-sample sequence has length `headers.length * steps` for the first
record's `steps`; (b) when the line loop ends with at least one record
but a sample count different from `headers.length * first.steps`, the
parse fails with the fatal `count_mismatch` error. -/
theorem parse_logfile_sample_count :
    (∀ lines hs ps, parse_logfile lines = .ok (hs, ps) →
      ∃ h0 t, hs = h0 :: t ∧ ps.length = hs.length * h0.steps) ∧
    (∀ lines s, runLines initState lines = .ok s →
      s.headers.length ≠ 0 →
      s.power_data.length ≠ s.headers.length * s.first_header.steps →
      parse_logfile lines = .error .count_mismatch) := by
  constructor
  · intro lines hs ps hok
    unfold parse_logfile at hok
    cases hr : runLines initState lines with
    | error e => rw [hr] at hok; cases hok
    | ok s =>
      rw [hr] at hok
      have hinv := runLines_inv initState_inv hr
      by_cases hlen : s.headers.length = 0
      · simp [hlen] at hok
      · by_cases hcnt : s.power_data.length = s.headers.length * s.first_header.steps
        · simp [hlen, hcnt] at hok
          obtain ⟨hh, hp⟩ := hok
          obtain ⟨iv1, iv2, iv3⟩ := hinv
          have hne : s.headers ≠ [] := by
            intro hnil
            rw [hnil] at hlen
            simp at hlen
          have hs0 : s.first_header.steps ≠ 0 := fun hz => hne (iv1.mp hz)
          obtain ⟨t, ht⟩ := iv2 hs0
          rw [← hh, ← hp]
          exact ⟨s.first_header, t, ht, by simpa using hcnt⟩
        · simp [hlen, hcnt] at hok
  · intro lines s hrun hlen hcnt
    unfold parse_logfile
    rw [hrun]
    simp [hlen, hcnt]

/-- Parser state after two records of `hdrLine` whose second record is
one data line short at end of stream. -/
def shortRecordState : ParserState :=
  ⟨hdrVal, 4, 2, 6, [hdrVal, hdrVal],
    [.finite ⟨-500, 10⟩, .finite ⟨-605, 10⟩, .finite ⟨-700, 10⟩]⟩

/-- Witness for C1: part (a) at a concrete one-record, two-step log;
part (b) at a concrete log whose second record is truncated by the end of
the stream. -/
theorem parse_logfile_sample_count_witness :
    (∃ h0 t, [hdrVal] = h0 :: t ∧
      ([CFloat.finite ⟨-500, 10⟩, CFloat.finite ⟨-605, 10⟩] : List CFloat).length =
        [hdrVal].length * h0.steps) ∧
    parse_logfile [hdrLine, "-50.0", "-60.5", "", hdrLine, "-70.0"] =
      .error .count_mismatch :=
  ⟨parse_logfile_sample_count.1 [hdrLine, "-50.0", "-60.5", ""] [hdrVal]
      [CFloat.finite ⟨-500, 10⟩, CFloat.finite ⟨-605, 10⟩] (by decide),
   parse_logfile_sample_count.2 [hdrLine, "-50.0", "-60.5", "", hdrLine, "-70.0"]
      shortRecordState (by decide) (by decide) (by decide)⟩

/-! ## Claim C6 -/

/-- The four cross-record field-mismatch failures of `parse_logfile`. -/
def isFieldMismatch : ParseErr → Bool
  | .start_freq_mismatch _ => true
  | .stop_freq_mismatch _ => true
  | .steps_mismatch _ => true
  | .rbw_mismatch _ => true
  | _ => false

/-- C6: (a) on success every stored header carries the first header's
`start_freq`, `stop_freq`, `steps` and `rbw` values; (b) reaching a
header line whose parsed fields differ from the first record's in any of
those four fields aborts the parse with a field-mismatch error (the
`Except` result carries no partial output). -/
theorem parse_logfile_homogeneity :
    (∀ lines hs ps, parse_logfile lines = .ok (hs, ps) →
      ∃ h0 t, hs = h0 :: t ∧ ∀ h ∈ hs, sameFields h h0) ∧
    (∀ pre l rest s h, runLines initState pre = .ok s →
      s.first_header.steps ≠ 0 →
      isCommentLine l = false →
      (s.in_record_line_count + 1) % s.lines_per_record = 1 →
      parse_header l = some h →
      (CFloat.cppNe h.start_freq s.first_header.start_freq
        || CFloat.cppNe h.stop_freq s.first_header.stop_freq
        || !(h.steps = s.first_header.steps)
        || CFloat.cppNe h.rbw s.first_header.rbw) = true →
      ∃ e, parse_logfile (pre ++ l :: rest) = .error e ∧ isFieldMismatch e = true) := by
  constructor
  · intro lines hs ps hok
    unfold parse_logfile at hok
    cases hr : runLines initState lines with
    | error e => rw [hr] at hok; cases hok
    | ok s =>
      rw [hr] at hok
      have hinv := runLines_inv initState_inv hr
      by_cases hlen : s.headers.length = 0
      · simp [hlen] at hok
      · by_cases hcnt : s.power_data.length = s.headers.length * s.first_header.steps
        · simp [hlen, hcnt] at hok
          obtain ⟨hh, hp⟩ := hok
          obtain ⟨iv1, iv2, iv3⟩ := hinv
          have hne : s.headers ≠ [] := by
            intro hnil
            rw [hnil] at hlen
            simp at hlen
          have hs0 : s.first_header.steps ≠ 0 := fun hz => hne (iv1.mp hz)
          obtain ⟨t, ht⟩ := iv2 hs0
          rw [← hh]
          exact ⟨s.first_header, t, ht, iv3⟩
        · simp [hlen, hcnt] at hok
  · intro pre l rest s h hpre hfz hcomment hpos hph hdiff
    have hstep : ∃ e, processLine s l = .error e ∧ isFieldMismatch e = true := by
      cases hb1 : CFloat.cppNe h.start_freq s.first_header.start_freq with
      | true =>
        exact ⟨.start_freq_mismatch (s.real_line_count + 1),
          by simp [processLine, hcomment, hpos, hph, hfz, hb1], rfl⟩
      | false =>
        cases hb2 : CFloat.cppNe h.stop_freq s.first_header.stop_freq with
        | true =>
          exact ⟨.stop_freq_mismatch (s.real_line_count + 1),
            by simp [processLine, hcomment, hpos, hph, hfz, hb1, hb2], rfl⟩
        | false =>
          by_cases hb3 : h.steps = s.first_header.steps
          · cases hb4 : CFloat.cppNe h.rbw s.first_header.rbw with
            | true =>
              exact ⟨.rbw_mismatch (s.real_line_count + 1),
                by simp [processLine, hcomment, hpos, hph, hfz, hb1, hb2, hb3, hb4], rfl⟩
            | false =>
              simp [hb1, hb2, hb3, hb4] at hdiff
          · exact ⟨.steps_mismatch (s.real_line_count + 1),
              by simp [processLine, hcomment, hpos, hph, hfz, hb1, hb2, hb3], rfl⟩
    obtain ⟨e, he, hm⟩ := hstep
    refine ⟨e, parse_logfile_error_of_runLines ?_, hm⟩
    rw [runLines_append, hpre]
    exact runLines_cons_error rest he

/-- Second header line whose `steps` field differs from `hdrLine`. -/
def hdrLine3 : String := "$ 88.000000,108.000000,3,10.000,20230101T000100,20230101T000159"

/-- Header value parsed from `hdrLine3`. -/
def hdr3Val : logheader_t :=
  ⟨.finite ⟨88000000, 1000000⟩, .finite ⟨108000000, 1000000⟩, 3,
    .finite ⟨10000, 1000⟩, "20230101T000100", "20230101T000159"⟩

/-- Parser state after one complete record of `hdrLine`. -/
def c6state : ParserState :=
  ⟨hdrVal, 4, 0, 4, [hdrVal], [.finite ⟨-500, 10⟩, .finite ⟨-605, 10⟩]⟩

/-- Witness for C6: part (a) at a concrete successful parse, part (b) at
a concrete log whose second header differs in `steps`. -/
theorem parse_logfile_homogeneity_witness :
    (∃ h0 t, [hdrVal] = h0 :: t ∧ ∀ h ∈ [hdrVal], sameFields h h0) ∧
    (∃ e, parse_logfile ([hdrLine, "-50.0", "-60.5", ""] ++ hdrLine3 :: []) = .error e ∧
      isFieldMismatch e = true) :=
  ⟨parse_logfile_homogeneity.1 [hdrLine, "-50.0", "-60.5", ""] [hdrVal]
      [CFloat.finite ⟨-500, 10⟩, CFloat.finite ⟨-605, 10⟩] (by decide),
   parse_logfile_homogeneity.2 [hdrLine, "-50.0", "-60.5", ""] hdrLine3 [] c6state hdr3Val
      (by decide) (by decide) (by decide) (by decide) (by decide) (by decide)⟩

/-! ## Claims C7, C9, C10 -/

/-- Whether `std::stof` on this line yields a finite value. -/
def parsesFiniteB (l : String) : Bool :=
  match stofModel l with
  | .ok v => v.isFinite
  | .error _ => false

/-- The two fatal failures of the data-line branch (conversion failure,
non-finite converted value). -/
def isDataLineErr : ParseErr → Bool
  | .stof_failed _ _ => true
  | .invalid_power _ => true
  | _ => false

/-- C7: when the parser reaches a data-line position with a line that does
not convert to a finite float (no conversion, out-of-range conversion, or
a NaN / infinity value), the whole parse aborts with a fatal data-line
error; nothing is emitted for the line and no parsing continues. -/
theorem parse_logfile_nonfinite_data_fatal (pre : List String) (l : String)
    (rest : List String) (s : ParserState)
    (hpre : runLines initState pre = .ok s)
    (hcomment : isCommentLine l = false)
    (hpos1 : (s.in_record_line_count + 1) % s.lines_per_record ≠ 1)
    (hpos0 : (s.in_record_line_count + 1) % s.lines_per_record ≠ 0)
    (hfin : parsesFiniteB l = false) :
    ∃ e, parse_logfile (pre ++ l :: rest) = .error e ∧ isDataLineErr e = true := by
  have hstep : ∃ e, processLine s l = .error e ∧ isDataLineErr e = true := by
    unfold parsesFiniteB at hfin
    cases hsf : stofModel l with
    | error err =>
      exact ⟨.stof_failed (s.real_line_count + 1) l,
        by simp [processLine, hcomment, hpos1, hpos0, hsf], rfl⟩
    | ok v =>
      rw [hsf] at hfin
      simp only [] at hfin
      exact ⟨.invalid_power (s.real_line_count + 1),
        by simp [processLine, hcomment, hpos1, hpos0, hsf, hfin], rfl⟩
  obtain ⟨e, he, hm⟩ := hstep
  refine ⟨e, parse_logfile_error_of_runLines ?_, hm⟩
  rw [runLines_append, hpre]
  exact runLines_cons_error rest he

/-- Parser state immediately after the single header line `hdrLine`. -/
def midRecordState : ParserState := ⟨hdrVal, 4, 1, 1, [hdrVal], []⟩

/-- Witness for C7: a NaN data line aborts a concrete parse. -/
theorem parse_logfile_nonfinite_data_fatal_witness :
    ∃ e, parse_logfile ([hdrLine] ++ "nan" :: []) = .error e ∧ isDataLineErr e = true :=
  parse_logfile_nonfinite_data_fatal [hdrLine] "nan" [] midRecordState
    (by decide) (by decide) (by decide) (by decide) (by decide)

/-- C9: a line whose first character is the comment marker `#` is skipped
entirely: the parser step only advances the physical line counter and
leaves the record-position counter, the record geometry, and both output
vectors untouched, so the line is classified neither as header nor data
nor trailing blank. -/
theorem parse_logfile_comment_skipped (s : ParserState) (l : String)
    (hc : isCommentLine l = true) :
    processLine s l = .ok { s with real_line_count := s.real_line_count + 1 } := by
  simp [processLine, hc]

/-- Witness for C9 at a concrete comment line. -/
theorem parse_logfile_comment_skipped_witness :
    processLine initState "# a comment" =
      .ok { initState with real_line_count := initState.real_line_count + 1 } :=
  parse_logfile_comment_skipped initState "# a comment" (by decide)

/-- C10: a data line whose leading characters convert to a finite float is
accepted even when arbitrary text trails the numeral (such as
`"-50.5dBm"`): `std::stof` converts the longest valid numeric part and
the parser stores exactly that value, continuing normally. -/
theorem parse_logfile_numeric_trailing_accepted (pre : List String) (l : String)
    (s : ParserState) (f : Frac)
    (hpre : runLines initState pre = .ok s)
    (hcomment : isCommentLine l = false)
    (hpos1 : (s.in_record_line_count + 1) % s.lines_per_record ≠ 1)
    (hpos0 : (s.in_record_line_count + 1) % s.lines_per_record ≠ 0)
    (hsf : stofModel l = .ok (.finite f)) :
    runLines initState (pre ++ [l]) =
      .ok { s with real_line_count := s.real_line_count + 1
                   in_record_line_count := s.in_record_line_count + 1
                   power_data := s.power_data ++ [.finite f] } := by
  rw [runLines_append, hpre]
  have hstep : processLine s l =
      .ok { s with real_line_count := s.real_line_count + 1
                   in_record_line_count := s.in_record_line_count + 1
                   power_data := s.power_data ++ [.finite f] } := by
    simp [processLine, hcomment, hpos1, hpos0, hsf, CFloat.isFinite]
  simp [runLines, hstep]

/-- Witness for C10: `"-50.5dBm"` is stored as -50.5 in a concrete parse. -/
theorem parse_logfile_numeric_trailing_accepted_witness :
    runLines initState ([hdrLine] ++ ["-50.5dBm"]) =
      .ok { midRecordState with
              real_line_count := midRecordState.real_line_count + 1
              in_record_line_count := midRecordState.in_record_line_count + 1
              power_data := midRecordState.power_data ++ [.finite ⟨-505, 10⟩] } :=
  parse_logfile_numeric_trailing_accepted [hdrLine] "-50.5dBm" midRecordState ⟨-505, 10⟩
    (by decide) (by decide) (by decide) (by decide) (by decide)

/-! ## Timestamps

src/common.cpp `time_from_str` parses `"%4Y%2m%2dT%2H%2M%2S"` with the
date library into a second-resolution `time_point`, throwing on parse
failure.  Each numeric field reads up to its width in digits (at least
one); fields are range-checked and the civil date must be valid.  The
epoch arithmetic is the standard `days_from_civil` algorithm the date
library uses.  The returned value is converted to
`time_point<system_clock>` (nanosecond resolution in libstdc++), so a
parsed time whose nanosecond count overflows `int64_t` is undefined
behaviour, modelled as an error. -/

/-- Read at most `n` (at least one) decimal digits. -/
def parseNDigits (n : ℕ) (cs : List Char) : Option (ℕ × List Char) :=
  let ds := (cs.takeWhile isDig).take n
  if ds = [] then none else some (digitsToNat ds, cs.drop ds.length)

/-- Gregorian leap year. -/
def isLeapYear (y : ℕ) : Bool :=
  decide (y % 4 = 0) && (decide (y % 100 ≠ 0) || decide (y % 400 = 0))

/-- Days in a civil month. -/
def daysInMonth (y m : ℕ) : ℕ :=
  if m = 2 then (if isLeapYear y then 29 else 28)
  else if m = 4 || m = 6 || m = 9 || m = 11 then 30
  else 31

/-- Days from 1970-01-01 to the given civil date (Howard Hinnant's
`days_from_civil`, the algorithm inside the date library; `tdiv` is the
C truncating division it is written with). -/
def days_from_civil (y m d : ℤ) : ℤ :=
  let y1 := y - (if m ≤ 2 then 1 else 0)
  let era := (if 0 ≤ y1 then y1 else y1 - 399).tdiv 400
  let yoe := y1 - era * 400
  let doy := (153 * (m + (if 2 < m then -3 else 9)) + 2).tdiv 5 + d - 1
  let doe := yoe * 365 + yoe.tdiv 4 - yoe.tdiv 100 + doy
  era * 146097 + doe - 719468

/-- Parse `"%4Y%2m%2dT%2H%2M%2S"` to seconds since the epoch; `none` sets
the stream's fail bit (field unreadable, field out of range, or invalid
civil date). -/
def parseTimestamp (s : String) : Option ℤ := do
  let (y, cs) ← parseNDigits 4 s.data
  let (mo, cs) ← parseNDigits 2 cs
  let (d, cs) ← parseNDigits 2 cs
  let cs ← expectChar 'T' cs
  let (hh, cs) ← parseNDigits 2 cs
  let (mi, cs) ← parseNDigits 2 cs
  let (ss, _) ← parseNDigits 2 cs
  if 1 ≤ mo ∧ mo ≤ 12 ∧ 1 ≤ d ∧ d ≤ daysInMonth y mo ∧ hh ≤ 23 ∧ mi ≤ 59 ∧ ss ≤ 59 then
    some (days_from_civil (y : ℤ) (mo : ℤ) (d : ℤ) * 86400 +
      (hh : ℤ) * 3600 + (mi : ℤ) * 60 + (ss : ℤ))
  else none

example : parseTimestamp "20230101T000000" = some 1672531200 := by decide
example : parseTimestamp "20230101T000100" = some 1672531260 := by decide
example : parseTimestamp "20240229T120000" = some 1709208000 := by decide
example : parseTimestamp "20230229T120000" = none := by decide
example : parseTimestamp "2023x101T000000" = none := by decide

/-- Failure modes of the checker: a thrown `StringException` from
`time_from_str`, or undefined behaviour (division by zero, empty-vector
`front()`/`back()`, out-of-range `time_point` arithmetic). -/
inductive CheckErr where
  | empty_vector
  | time_parse
  | overflow
  | div_by_zero
deriving DecidableEq, Repr

/-- Whether `t` seconds is representable as `int64_t` nanoseconds (the
rep of `time_point<system_clock>` in libstdc++). -/
def nanoRepresentable (t : ℤ) : Bool :=
  decide (-(2 ^ 63) ≤ t * 1000000000) && decide (t * 1000000000 < 2 ^ 63)

/-- src/common.cpp `time_from_str`: parse or throw, then the implicit
conversion to the nanosecond `time_point<system_clock>` (overflow of that
conversion is undefined behaviour, modelled as an error). -/
def time_from_str (s : String) : Except CheckErr ℤ :=
  match parseTimestamp s with
  | none => .error .time_parse
  | some t => if nanoRepresentable t then .ok t else .error .overflow

/-- Difference of two parsed time points (`b - a`), in seconds; the
nanosecond subtraction must not overflow `int64_t`. -/
def cppTimeDiff (a b : ℤ) : Except CheckErr ℤ :=
  if nanoRepresentable (b - a) then .ok (b - a) else .error .overflow

/-- C conversion of a signed 64-bit value to `size_t` (modulo 2^64). -/
def toU64 (x : ℤ) : ℕ := (x.emod (2 ^ 64)).toNat

/-- gcc's conversion of an unsigned value to `int` (wrap modulo 2^32 into
the signed range; implementation-defined in C++, modelled as gcc does). -/
def toI32 (n : ℕ) : ℤ :=
  if n % 2 ^ 32 < 2 ^ 31 then ((n % 2 ^ 32 : ℕ) : ℤ)
  else ((n % 2 ^ 32 : ℕ) : ℤ) - 2 ^ 32

/-- The warning flags of `logproblem_t` in src/common.hpp. -/
structure logproblem_t where
  variant_interval : Bool
  time_range_not_divisible_by_record_count : Bool
  interval_not_divisible_by_60 : Bool
  negative_interval : Bool
  time_overlap : Bool
deriving DecidableEq, Repr

/-- A report with every flag clear. -/
def noProblems : logproblem_t := ⟨false, false, false, false, false⟩

/-- The consecutive-pair loop of `check_logfile_time_consistency`
(iteration `i` works on `h1 = headers[i]`, `h2 = headers[i+1]`;
`rest = []` exactly when `i == record_count - 2`).  Carries the running
`last_interval`, the flag record, and `inconsistency_count`. -/
def checkPairs : List logheader_t → ℤ → logproblem_t → ℕ →
    Except CheckErr (logproblem_t × ℕ)
  | h1 :: h2 :: rest, last_interval, p, cnt =>
    match time_from_str h1.start_time with
    | .error e => .error e
    | .ok ts1 =>
    match time_from_str h1.end_time with
    | .error e => .error e
    | .ok te1 =>
    match time_from_str h2.start_time with
    | .error e => .error e
    | .ok ts2 =>
    match time_from_str h2.end_time with
    | .error e => .error e
    | .ok te2 =>
    match cppTimeDiff ts1 ts2 with
    | .error e => .error e
    | .ok tsdiff =>
      let pc1 : logproblem_t × ℕ :=
        if ¬(ts1 ≤ te1 ∧ te1 ≤ ts2 ∧ ts2 ≤ te2 ∧ ts1 < ts2) then
          ({ p with time_overlap := true }, cnt + 1)
        else (p, cnt)
      let pc2 : logproblem_t × ℕ :=
        if te1 < ts1 then ({ pc1.1 with time_overlap := true }, pc1.2 + 1) else pc1
      let pc3 : logproblem_t × ℕ :=
        if rest = [] ∧ te2 < ts2 then ({ pc2.1 with time_overlap := true }, pc2.2 + 1)
        else pc2
      let pc4 : logproblem_t × ℕ :=
        if ¬(tsdiff = last_interval) then ({ pc3.1 with variant_interval := true }, pc3.2 + 1)
        else pc3
      let pc5 : logproblem_t × ℕ :=
        if tsdiff < 0 then ({ pc4.1 with negative_interval := true }, pc4.2 + 1) else pc4
      checkPairs (h2 :: rest) tsdiff pc5.1 pc5.2
  | _, _, p, cnt => .ok (p, cnt)

/-- src/common.cpp `check_logfile_time_consistency`: nominal interval from
first and last start times (the division `time_diff / (record_count - 1)`
mixes `int64_t` with `size_t`, so C++ converts the dividend to `uint64_t`
and narrows the unsigned quotient to `int`), divisibility checks, the
pair loop, and the returned "has any problem" boolean.  `problems` is the
caller's flag record, only ever set to `true` by the checker.  Division
by zero (`record_count == 1`, or `60 % interval` with a zero interval) is
undefined behaviour, modelled as `.error .div_by_zero`. -/
def check_logfile_time_consistency (headers : List logheader_t)
    (problems : logproblem_t) : Except CheckErr (logproblem_t × Bool) :=
  match headers with
  | [] => .error .empty_vector
  | h0 :: hrest =>
    match time_from_str h0.start_time with
    | .error e => .error e
    | .ok first_sweep_time =>
    match time_from_str (hrest.getLastD h0).start_time with
    | .error e => .error e
    | .ok last_sweep_time =>
    match cppTimeDiff first_sweep_time last_sweep_time with
    | .error e => .error e
    | .ok time_diff =>
      let record_count := hrest.length + 1
      if record_count - 1 = 0 then .error .div_by_zero
      else
        let interval : ℤ := toI32 (toU64 time_diff / (record_count - 1))
        let pc1 : logproblem_t × ℕ :=
          if ¬(toU64 time_diff % (record_count - 1) = 0) then
            ({ problems with time_range_not_divisible_by_record_count := true }, 1)
          else (problems, 0)
        if interval = 0 then .error .div_by_zero
        else
          let pc2 : logproblem_t × ℕ :=
            if ¬((60 : ℤ).tmod interval = 0) then
              ({ pc1.1 with interval_not_divisible_by_60 := true }, pc1.2 + 1)
            else pc1
          (checkPairs (h0 :: hrest) interval pc2.1 pc2.2).map
            (fun rc => (rc.1, decide (rc.2 > 0)))

example :
    check_logfile_time_consistency
      [⟨.finite ⟨88, 1⟩, .finite ⟨108, 1⟩, 2, .finite ⟨10, 1⟩,
        "20230101T000000", "20230101T000000"⟩,
       ⟨.finite ⟨88, 1⟩, .finite ⟨108, 1⟩, 2, .finite ⟨10, 1⟩,
        "20230101T000100", "20230101T000100"⟩] noProblems =
      .ok (noProblems, false) := by decide

/-! ## Claim C3 -/

/-- C3 (recording the code's actual behaviour): on a single-record input
the checker reaches `time_diff.count() / (record_count - 1)` with
`record_count - 1 == 0` and divides by zero — undefined behaviour, not
the "no interval to check" special case the specification requires. -/
theorem check_single_record_divides_by_zero :
    check_logfile_time_consistency [hdrVal] noProblems = .error .div_by_zero := by
  decide

/-! ## Claim C2 -/

/-- Header with a start time equal to `hdrVal`'s (same second). -/
def c2hdrSame : logheader_t :=
  ⟨.finite ⟨88000000, 1000000⟩, .finite ⟨108000000, 1000000⟩, 2,
    .finite ⟨10000, 1000⟩, "20230101T000000", "20230101T000130"⟩

/-- Counterexample to C2 as stated: a non-empty (two-record) header list
on which the checker does not terminate normally — both records carry the
same start time, the truncated nominal interval is 0, and `60 % interval`
divides by zero. -/
theorem check_equal_timestamps_crashes :
    check_logfile_time_consistency [hdrVal, c2hdrSame] noProblems =
      .error .div_by_zero := by
  decide

/-- `timeOkStrictB s`: `time_from_str` succeeds on `s` and the instant is
within 2^62 nanoseconds of the epoch (so that later differences of two
such instants cannot overflow the nanosecond `int64_t`). -/
def timeOkStrictB (s : String) : Bool :=
  match time_from_str s with
  | .ok t => decide (t.natAbs * 1000000000 < 2 ^ 62)
  | .error _ => false

/-- The nominal interval the checker computes from the first and last
start times, if those steps all succeed. -/
def nominalIntervalOf (headers : List logheader_t) : Option ℤ :=
  match headers with
  | [] => none
  | h0 :: hrest =>
    match time_from_str h0.start_time, time_from_str (hrest.getLastD h0).start_time with
    | .ok t0, .ok tn =>
      match cppTimeDiff t0 tn with
      | .ok d =>
        if hrest.length = 0 then none
        else some (toI32 (toU64 d / hrest.length))
      | .error _ => none
    | _, _ => none

theorem timeOkStrict_spec {s : String} (h : timeOkStrictB s = true) :
    ∃ t, time_from_str s = .ok t ∧ t.natAbs * 1000000000 < 2 ^ 62 := by
  unfold timeOkStrictB at h
  cases hts : time_from_str s with
  | error e => rw [hts] at h; cases h
  | ok t =>
    rw [hts] at h
    exact ⟨t, rfl, of_decide_eq_true h⟩

theorem nanoRepresentable_of_small {x : ℤ}
    (h : x.natAbs * 1000000000 < 2 ^ 63) : nanoRepresentable x = true := by
  unfold nanoRepresentable
  rw [Bool.and_eq_true, decide_eq_true_iff, decide_eq_true_iff]
  constructor <;> omega

theorem cppTimeDiff_ok {a b : ℤ} (ha : a.natAbs * 1000000000 < 2 ^ 62)
    (hb : b.natAbs * 1000000000 < 2 ^ 62) : cppTimeDiff a b = .ok (b - a) := by
  unfold cppTimeDiff
  rw [if_pos]
  apply nanoRepresentable_of_small
  omega

theorem checkPairs_ok (l : List logheader_t)
    (hall : ∀ h ∈ l, timeOkStrictB h.start_time = true ∧ timeOkStrictB h.end_time = true) :
    ∀ iv p c, ∃ r, checkPairs l iv p c = .ok r := by
  induction l with
  | nil => exact fun iv p c => ⟨(p, c), rfl⟩
  | cons h1 tl ih =>
    intro iv p c
    cases tl with
    | nil => exact ⟨(p, c), rfl⟩
    | cons h2 rest =>
      obtain ⟨t1s, ht1s, hb1s⟩ := timeOkStrict_spec (hall h1 (by simp)).1
      obtain ⟨t1e, ht1e, hb1e⟩ := timeOkStrict_spec (hall h1 (by simp)).2
      obtain ⟨t2s, ht2s, hb2s⟩ := timeOkStrict_spec (hall h2 (by simp)).1
      obtain ⟨t2e, ht2e, hb2e⟩ := timeOkStrict_spec (hall h2 (by simp)).2
      have hd := cppTimeDiff_ok hb1s hb2s
      have htail : ∀ h ∈ h2 :: rest,
          timeOkStrictB h.start_time = true ∧ timeOkStrictB h.end_time = true :=
        fun h hm => hall h (List.mem_cons_of_mem h1 hm)
      simp only [checkPairs, ht1s, ht1e, ht2s, ht2e, hd]
      exact ih htail _ _ _

theorem exists_ok_map {ε α β : Type} {E : Except ε α} {f : α → β}
    (h : ∃ r0, E = .ok r0) : ∃ r, E.map f = .ok r := by
  obtain ⟨r0, hr⟩ := h
  subst hr
  exact ⟨f r0, rfl⟩

/-- C2 (amended): the checker terminates normally — only accumulating
warning flags and returning the "has any problem" boolean — provided the
input has at least two records, every record's start and end timestamp
parses to an instant within 2^62 nanoseconds of the epoch, and the
truncated nominal interval is nonzero.  (As stated, on arbitrary
non-empty input, the claim fails: single-record inputs and zero nominal
intervals divide by zero, and unparseable timestamps throw.) -/
theorem check_time_consistency_terminates (headers : List logheader_t)
    (p0 : logproblem_t)
    (hlen : 2 ≤ headers.length)
    (htimes : (headers.all fun h =>
      timeOkStrictB h.start_time && timeOkStrictB h.end_time) = true)
    (iv : ℤ) (hiv : nominalIntervalOf headers = some iv) (hiv0 : ¬(iv = 0)) :
    ∃ r, check_logfile_time_consistency headers p0 = .ok r := by
  cases headers with
  | nil => simp at hlen
  | cons h0 tl =>
    cases tl with
    | nil => simp at hlen
    | cons h1 rest =>
      have hall : ∀ h ∈ h0 :: h1 :: rest,
          timeOkStrictB h.start_time = true ∧ timeOkStrictB h.end_time = true := by
        intro h hm
        have hx := List.all_eq_true.mp htimes h hm
        simp only [Bool.and_eq_true] at hx
        exact hx
      obtain ⟨t0, ht0, hb0⟩ := timeOkStrict_spec (hall h0 (by simp)).1
      have hlast_mem : (h1 :: rest).getLastD h0 ∈ h0 :: h1 :: rest :=
        List.getLastD_mem_cons _ _
      obtain ⟨tn, htn, hbn⟩ := timeOkStrict_spec (hall _ hlast_mem).1
      have hd := cppTimeDiff_ok hb0 hbn
      simp only [nominalIntervalOf, ht0, htn, hd, List.length_cons] at hiv
      rw [if_neg (Nat.succ_ne_zero rest.length)] at hiv
      have hiv' : toI32 (toU64 (tn - t0) / (rest.length + 1)) = iv := Option.some.inj hiv
      simp only [check_logfile_time_consistency, ht0, htn, hd, List.length_cons,
        Nat.add_sub_cancel]
      rw [if_neg (Nat.succ_ne_zero rest.length)]
      rw [hiv', if_neg hiv0]
      exact exists_ok_map (checkPairs_ok (h0 :: h1 :: rest) hall iv _ _)

/-- Witness for the amended C2 at a concrete two-record input one minute
apart. -/
theorem check_time_consistency_terminates_witness :
    ∃ r, check_logfile_time_consistency
      [hdrVal,
       ⟨.finite ⟨88000000, 1000000⟩, .finite ⟨108000000, 1000000⟩, 2,
         .finite ⟨10000, 1000⟩, "20230101T000100", "20230101T000159"⟩]
      noProblems = .ok r :=
  check_time_consistency_terminates _ noProblems (by decide) (by decide) 60
    (by decide) (by decide)

/-! ## Claim C4 -/

/-- Header with the given start and end times (frequencies fixed). -/
def c4hdr (st et : String) : logheader_t :=
  ⟨.finite ⟨88, 1⟩, .finite ⟨108, 1⟩, 2, .finite ⟨10, 1⟩, st, et⟩

/-- Four records at T, T+60s, T+60s, T+180s (ends equal to starts). -/
def c4headers : List logheader_t :=
  [c4hdr "20230101T010000" "20230101T010000",
   c4hdr "20230101T010100" "20230101T010100",
   c4hdr "20230101T010100" "20230101T010100",
   c4hdr "20230101T010300" "20230101T010300"]

/-- Counterexample to C4 as stated: on the T, T+60s, T+60s, T+180s input
the checker sets `time_overlap := true` (the repeated start time violates
the strict-ordering conjunct `ts1 < ts2`), not `false` as claimed; the
flag record is (variant_interval, range-divisibility, 60-divisibility,
negative_interval, time_overlap). -/
theorem check_repeated_timestamp_overlap_set :
    check_logfile_time_consistency c4headers noProblems =
      .ok (⟨true, false, false, false, true⟩, true) := by
  decide

theorem cppTimeDiff_const (a b c : ℤ) (hc : b - a = c)
    (hrep : nanoRepresentable c = true) : cppTimeDiff a b = .ok c := by
  unfold cppTimeDiff
  rw [hc, if_pos hrep]

/-- C4 (amended): for every four-record input whose start timestamps are
T, T+60s, T+60s, T+180s and whose end timestamps equal the start
timestamps, starting from a clear report the checker sets
`variant_interval := true` and also sets `time_overlap := true` for the
repeated-timestamp pair (equal start times violate the strict ordering
`start[i] < start[i+1]`); no other flag is set and the "has any problem"
result is `true`. -/
theorem check_variant_interval_flags (h1 h2 h3 h4 : logheader_t) (t : ℤ)
    (hs1 : time_from_str h1.start_time = .ok t)
    (he1 : time_from_str h1.end_time = .ok t)
    (hs2 : time_from_str h2.start_time = .ok (t + 60))
    (he2 : time_from_str h2.end_time = .ok (t + 60))
    (hs3 : time_from_str h3.start_time = .ok (t + 60))
    (he3 : time_from_str h3.end_time = .ok (t + 60))
    (hs4 : time_from_str h4.start_time = .ok (t + 180))
    (he4 : time_from_str h4.end_time = .ok (t + 180)) :
    check_logfile_time_consistency [h1, h2, h3, h4] noProblems =
      .ok (⟨true, false, false, false, true⟩, true) := by
  have hd180 : cppTimeDiff t (t + 180) = .ok 180 :=
    cppTimeDiff_const t (t + 180) 180 (by omega) (by decide)
  have hd60 : cppTimeDiff t (t + 60) = .ok 60 :=
    cppTimeDiff_const t (t + 60) 60 (by omega) (by decide)
  have hd0 : cppTimeDiff (t + 60) (t + 60) = .ok 0 :=
    cppTimeDiff_const (t + 60) (t + 60) 0 (by omega) (by decide)
  have hd120 : cppTimeDiff (t + 60) (t + 180) = .ok 120 :=
    cppTimeDiff_const (t + 60) (t + 180) 120 (by omega) (by decide)
  have hp : checkPairs [h1, h2, h3, h4] 60 noProblems 0 =
      .ok (⟨true, false, false, false, true⟩, 3) := by
    simp only [checkPairs, hs1, he1, hs2, he2, hs3, he3, hs4, he4, hd60, hd0, hd120]
    norm_num [noProblems]
  simp only [check_logfile_time_consistency, List.getLastD_cons, List.getLastD_nil,
    hs1, hs4, hd180, List.length_cons, List.length_nil, Nat.add_sub_cancel]
  norm_num
  rw [show toI32 (toU64 180 / 3) = 60 from by decide,
      show toU64 180 % 3 = 0 from by decide]
  norm_num [hp]
  rfl

/-- Witness for the amended C4 at concrete timestamps (T = 2024-03-01
12:00:00 UTC, epoch second 1709294400). -/
theorem check_variant_interval_flags_witness :
    check_logfile_time_consistency
      [c4hdr "20240301T120000" "20240301T120000",
       c4hdr "20240301T120100" "20240301T120100",
       c4hdr "20240301T120100" "20240301T120100",
       c4hdr "20240301T120300" "20240301T120300"] noProblems =
      .ok (⟨true, false, false, false, true⟩, true) :=
  check_variant_interval_flags _ _ _ _ 1709294400
    (by decide) (by decide) (by decide) (by decide)
    (by decide) (by decide) (by decide) (by decide)

/-! ## Claim C5: the vertical-gridline spacing search

`draw_vertical_gridlines` (log2png) computes `start_freq`/`stop_freq` in
Hz as `size_t`, the per-bin `step_freq = (stop - start) / (steps - 1)`,
then searches downward from `gridline_exponent = 100ULL*1000*1000*1000`
(10^11), trying `exponent*5`, `exponent*2`, `exponent*1` and dividing the
exponent by ten, until `freq_range / spacing >= MIN_GRIDLINES`.  The
exponent is 10^(k-1) when the recursion argument below is `k`; argument 0
is the state where the exponent has reached zero and the next candidate
spacing is 0, making the loop's `freq_range / spacing` divide by zero
(undefined behaviour, `none`). -/

/-- config.hpp `MIN_GRIDLINES`. -/
def MIN_GRIDLINES : ℕ := 6

/-- The spacing-search loop, indexed by the power of ten. -/
def spacingSearchPow (freq_range minG : ℕ) : ℕ → Option ℕ
  | 0 => none
  | k + 1 =>
    let ex := 10 ^ k
    if minG ≤ freq_range / (ex * 5) then some (ex * 5)
    else if minG ≤ freq_range / (ex * 2) then some (ex * 2)
    else if minG ≤ freq_range / ex then some ex
    else spacingSearchPow freq_range minG k

/-- The complete search: the initial `SIZE_MAX` spacing is kept when the
loop guard already holds, otherwise the loop runs from exponent 10^11. -/
def draw_vertical_gridlines_spacing (freq_range : ℕ) : Option ℕ :=
  if MIN_GRIDLINES ≤ freq_range / SIZE_MAX then some SIZE_MAX
  else spacingSearchPow freq_range MIN_GRIDLINES 12

/-- C `(size_t)` conversion of a double: defined exactly when the value
truncated toward zero is representable (value in (-1, 2^64)); anything
else — negative, too large, infinite, NaN — is undefined behaviour. -/
def doubleToSizeT (c : CFloat) : Option ℕ :=
  match c with
  | .finite f =>
    if Frac.lt ⟨-1, 1⟩ f && Frac.lt f ⟨2 ^ 64, 1⟩ then some f.trunc.toNat else none
  | _ => none

/-- The spacing `draw_vertical_gridlines` selects for a header: frequency
bounds converted to Hz `size_t` (the multiplication by 1e6 is exact for
the integral MHz values in question), the `step_freq` division by
`steps - 1` (zero for a one-bin sweep: undefined behaviour), then the
spacing search on the wrapped `size_t` range. -/
def vertical_gridline_spacing (steps : ℕ) (h : logheader_t) : Option ℕ :=
  match doubleToSizeT (CFloat.mul h.start_freq (.finite ⟨1000000, 1⟩)),
        doubleToSizeT (CFloat.mul h.stop_freq (.finite ⟨1000000, 1⟩)) with
  | some sf, some stf =>
    if steps - 1 = 0 then none
    else draw_vertical_gridlines_spacing ((stf + 2 ^ 64 - sf) % 2 ^ 64)
  | _, _ => none

/-- An 88-108 MHz sweep header. -/
def fmHeader : logheader_t :=
  ⟨.finite ⟨88, 1⟩, .finite ⟨108, 1⟩, 450, .finite ⟨10, 1⟩,
    "20230101T000000", "20230101T000059"⟩

/-- C5: for the 88-108 MHz sweep (range 20 MHz) with the configured
minimum of 6 gridlines, the descending 5-2-1 search accepts a spacing of
exactly 2,000,000 Hz (5 MHz gives only 4 gridlines and is refused). -/
theorem gridline_spacing_fm_band :
    vertical_gridline_spacing 450 fmHeader = some 2000000 ∧ MIN_GRIDLINES = 6 := by
  constructor
  · decide
  · rfl

/-! ## Claim C8: the spectrogram pixel writes

`draw_spectrogram` (log2png) obtains the pixel buffer, advances it past
the banner (`width * channels * BANNER_HEIGHT` quantum slots), and for
each flat sample index `i` writes the colormap value of
`(power_data.at(i) + 120) / 100` into quantum slots `i*channels`,
`i*channels + 1`, `i*channels + 2` of the advanced buffer — leaving every
other channel of the pixel, in particular the fourth (alpha), unwritten.
The colormap (`tinycolormap::GetColor(..., Cubehelix)`) is a pure
function modelled as an abstract parameter; the writes are recorded as a
list of (quantum index, value) pairs, which is faithful because the
(possibly parallel) loop writes disjoint slots. -/

/-- config.hpp `BANNER_HEIGHT`. -/
def BANNER_HEIGHT : ℕ := 64

/-- An RGB triple as produced by the colormap (components in [0,1]). -/
structure RGB where
  r : Frac
  g : Frac
  b : Frac
deriving DecidableEq, Repr

/-- The (quantum index, value) stores performed by `draw_spectrogram` on
an image of the given width and channel count. -/
def draw_spectrogram_writes (width channels : ℕ) (cmap : Frac → RGB)
    (quantumRange : Frac) (power_data : List Frac) : List (ℕ × Frac) :=
  (List.range power_data.length).flatMap fun i =>
    let base := width * channels * BANNER_HEIGHT + i * channels
    let c := cmap (((power_data.getD i ⟨0, 1⟩).add (.ofInt 120)).divNat 100)
    [(base, c.r.mul quantumRange), (base + 1, c.g.mul quantumRange),
     (base + 2, c.b.mul quantumRange)]

/-- C8: on an image of width `steps`, sample `i`'s three stores land in
the pixel at column `i % steps`, row `i / steps + BANNER_HEIGHT`
(channels 0, 1, 2 — red, green, blue scaled by the quantum range — of
quantum slot `(row * steps + col) * channels`), with the color obtained
by evaluating the colormap at `(power + 120) / 100`; and no store of the
whole loop ever touches channel 3 (alpha) of any pixel. -/
theorem draw_spectrogram_pixel_mapping (steps channels : ℕ) (cmap : Frac → RGB)
    (qr : Frac) (pd : List Frac) (i : ℕ)
    (hst : 0 < steps) (hch : 3 < channels) (hi : i < pd.length) :
    (((i / steps + BANNER_HEIGHT) * steps + i % steps) * channels,
      (cmap (((pd.getD i ⟨0, 1⟩).add (.ofInt 120)).divNat 100)).r.mul qr) ∈
        draw_spectrogram_writes steps channels cmap qr pd ∧
    (((i / steps + BANNER_HEIGHT) * steps + i % steps) * channels + 1,
      (cmap (((pd.getD i ⟨0, 1⟩).add (.ofInt 120)).divNat 100)).g.mul qr) ∈
        draw_spectrogram_writes steps channels cmap qr pd ∧
    (((i / steps + BANNER_HEIGHT) * steps + i % steps) * channels + 2,
      (cmap (((pd.getD i ⟨0, 1⟩).add (.ofInt 120)).divNat 100)).b.mul qr) ∈
        draw_spectrogram_writes steps channels cmap qr pd ∧
    ∀ w ∈ draw_spectrogram_writes steps channels cmap qr pd, w.1 % channels < 3 := by
  have hbase : ((i / steps + BANNER_HEIGHT) * steps + i % steps) * channels =
      steps * channels * BANNER_HEIGHT + i * channels := by
    have hqr : (i / steps + BANNER_HEIGHT) * steps + i % steps =
        i + BANNER_HEIGHT * steps := by
      calc (i / steps + BANNER_HEIGHT) * steps + i % steps
          = (steps * (i / steps) + i % steps) + BANNER_HEIGHT * steps := by ring
        _ = i + BANNER_HEIGHT * steps := by rw [Nat.div_add_mod]
    rw [hqr]
    ring
  refine ⟨?_, ?_, ?_, ?_⟩
  · rw [hbase]
    unfold draw_spectrogram_writes
    rw [List.mem_flatMap]
    exact ⟨i, List.mem_range.mpr hi, by simp⟩
  · rw [hbase]
    unfold draw_spectrogram_writes
    rw [List.mem_flatMap]
    exact ⟨i, List.mem_range.mpr hi, by simp⟩
  · rw [hbase]
    unfold draw_spectrogram_writes
    rw [List.mem_flatMap]
    exact ⟨i, List.mem_range.mpr hi, by simp⟩
  · intro w hw
    unfold draw_spectrogram_writes at hw
    rw [List.mem_flatMap] at hw
    obtain ⟨j, _, hwj⟩ := hw
    have hmod : ∀ k, k < 3 →
        (steps * channels * BANNER_HEIGHT + j * channels + k) % channels < 3 := by
      intro k hk
      have h1 : steps * channels * BANNER_HEIGHT + j * channels + k =
          k + (steps * BANNER_HEIGHT + j) * channels := by ring
      rw [h1, Nat.add_mul_mod_self_right]
      rw [Nat.mod_eq_of_lt (by omega)]
      exact hk
    simp only [List.mem_cons, List.mem_singleton] at hwj
    rcases hwj with hwj | hwj | hwj | hwj
    · rw [hwj]
      simpa using hmod 0 (by omega)
    · rw [hwj]
      exact hmod 1 (by omega)
    · rw [hwj]
      exact hmod 2 (by omega)
    · cases hwj

/-- Example colormap used by the witness. -/
def cmapEx (f : Frac) : RGB := ⟨f, f.add (.ofInt 1), f.mul f⟩

/-- Witness for C8: sample index 2 of a 3-sample, 2-column image with 4
channels lands at column 0, row 1 + banner. -/
theorem draw_spectrogram_pixel_mapping_witness :
    (((2 / 2 + BANNER_HEIGHT) * 2 + 2 % 2) * 4,
      (cmapEx ((((([⟨-50, 1⟩, ⟨-60, 1⟩, ⟨-70, 1⟩] : List Frac).getD 2 ⟨0, 1⟩).add
        (.ofInt 120)).divNat 100))).r.mul ⟨65535, 1⟩) ∈
        draw_spectrogram_writes 2 4 cmapEx ⟨65535, 1⟩ [⟨-50, 1⟩, ⟨-60, 1⟩, ⟨-70, 1⟩] ∧
    (((2 / 2 + BANNER_HEIGHT) * 2 + 2 % 2) * 4 + 1,
      (cmapEx ((((([⟨-50, 1⟩, ⟨-60, 1⟩, ⟨-70, 1⟩] : List Frac).getD 2 ⟨0, 1⟩).add
        (.ofInt 120)).divNat 100))).g.mul ⟨65535, 1⟩) ∈
        draw_spectrogram_writes 2 4 cmapEx ⟨65535, 1⟩ [⟨-50, 1⟩, ⟨-60, 1⟩, ⟨-70, 1⟩] ∧
    (((2 / 2 + BANNER_HEIGHT) * 2 + 2 % 2) * 4 + 2,
      (cmapEx ((((([⟨-50, 1⟩, ⟨-60, 1⟩, ⟨-70, 1⟩] : List Frac).getD 2 ⟨0, 1⟩).add
        (.ofInt 120)).divNat 100))).b.mul ⟨65535, 1⟩) ∈
        draw_spectrogram_writes 2 4 cmapEx ⟨65535, 1⟩ [⟨-50, 1⟩, ⟨-60, 1⟩, ⟨-70, 1⟩] ∧
    ∀ w ∈ draw_spectrogram_writes 2 4 cmapEx ⟨65535, 1⟩ [⟨-50, 1⟩, ⟨-60, 1⟩, ⟨-70, 1⟩],
      w.1 % 4 < 3 :=
  draw_spectrogram_pixel_mapping 2 4 cmapEx ⟨65535, 1⟩ [⟨-50, 1⟩, ⟨-60, 1⟩, ⟨-70, 1⟩] 2
    (by decide) (by decide) (by decide)

end SpectrumSaver
